import Mathlib

/-!
Shallow embedding of the live-caption audio pipeline (`gui_caption.py`).

Samples are modelled as rationals (exact arithmetic stands in for the
float32 sample values) except where the code takes a square root, where
reals are used.  Each definition mirrors one fragment of the source:

* `try_take_window`    — the window extraction at lines 291-293;
* `mixTick` / `mixPair` — the per-tick mixer at lines 273-288;
* `rms` / `discards`    — the silence gate at lines 295-297;
* `translate_text`      — the translation wrapper at lines 58-73;
* `dispatchRecognized`  — the post-transcription dispatch at lines 300-311;
* `handleModeChange` / `loopIteration` — the mode state machine and one
  iteration of `audio_processing_loop` (lines 235-313);
* `handleResult`        — one result consumed by `periodic_gui_update`
  (lines 196-211).
-/

set_option maxRecDepth 20000

namespace LiveCaption

/-- A value placed on `results_queue`: either a subtitle line or a
translation line (the `type` field of the dict in the source). -/
inductive Result where
  | subtitle (text : String)
  | translation (text : String)
deriving DecidableEq, Repr

/-! ## Segment buffer (lines 291-293)

`audio_buffer` is a flat sequence of samples; when it holds at least
`interval_samples` samples the head `interval_samples` are sliced off for
processing and the rest is kept. -/

/-- `try_take_window n buf` models
`if len(audio_buffer) >= interval_samples: processing_audio = audio_buffer[:interval_samples]; audio_buffer = audio_buffer[interval_samples:]`:
it returns the extracted window together with the remaining buffer, or
`none` when not enough samples have accumulated. -/
def try_take_window {α : Type} (n : Nat) (buf : List α) :
    Option (List α × List α) :=
  if n ≤ buf.length then some (buf.take n, buf.drop n) else none

/-- An operation on the segment buffer: appending freshly mixed samples
(`np.append(audio_buffer, mixed_audio_chunk)`, line 288) or one extraction
attempt (lines 291-293). -/
inductive BufOp (α : Type) where
  | push (xs : List α)
  | take

/-- Accounting state for a run of buffer operations: current buffer
contents, total samples ever pushed, total samples ever taken. -/
structure BufAcc (α : Type) where
  buf : List α
  pushed : Nat
  taken : Nat

/-- One buffer operation applied to the accounting state. -/
def bufStep {α : Type} (n : Nat) (a : BufAcc α) : BufOp α → BufAcc α
  | .push xs => { a with buf := a.buf ++ xs, pushed := a.pushed + xs.length }
  | .take =>
    match try_take_window n a.buf with
    | some (w, rest) => { a with buf := rest, taken := a.taken + w.length }
    | none => a

/-- Running a sequence of pushes and takes from the empty buffer. -/
def runOps {α : Type} (n : Nat) (ops : List (BufOp α)) : BufAcc α :=
  ops.foldl (bufStep n) ⟨[], 0, 0⟩

lemma bufStep_invariant {α : Type} (n : Nat) (a : BufAcc α)
    (h : a.pushed = a.taken + a.buf.length) (op : BufOp α) :
    (bufStep n a op).pushed = (bufStep n a op).taken + (bufStep n a op).buf.length := by
  cases op with
  | push xs => simp [bufStep, h]; omega
  | take =>
    by_cases hn : n ≤ a.buf.length
    · simp [bufStep, try_take_window, hn, List.length_take, List.length_drop]
      omega
    · simp [bufStep, try_take_window, hn, h]

lemma foldl_bufStep_invariant {α : Type} (n : Nat) (ops : List (BufOp α)) :
    ∀ a : BufAcc α, a.pushed = a.taken + a.buf.length →
      (ops.foldl (bufStep n) a).pushed
        = (ops.foldl (bufStep n) a).taken + (ops.foldl (bufStep n) a).buf.length := by
  induction ops with
  | nil => intro a h; simpa using h
  | cons op ops ih =>
    intro a h
    simpa [List.foldl_cons] using ih (bufStep n a op) (bufStep_invariant n a h op)

/-- Claim C1: with `interval_samples = processing_interval_seconds × 16000`
(line 233, sample rate 16000), whenever the buffer holds at least
`interval_samples` samples one extraction step removes exactly that many
samples from the head, leaving the rest unchanged in order; and over any
sequence of pushes and takes, total samples pushed equals total samples
taken plus samples remaining. -/
theorem segment_buffer_take_spec (secs : Nat) (buf : List ℚ)
    (h : secs * 16000 ≤ buf.length) :
    (∃ w rest, try_take_window (secs * 16000) buf = some (w, rest)
        ∧ w.length = secs * 16000 ∧ w ++ rest = buf)
    ∧ ∀ ops : List (BufOp ℚ),
        (runOps (secs * 16000) ops).pushed
          = (runOps (secs * 16000) ops).taken
            + (runOps (secs * 16000) ops).buf.length := by
  constructor
  · refine ⟨buf.take (secs * 16000), buf.drop (secs * 16000), ?_, ?_, ?_⟩
    · simp [try_take_window, h]
    · simpa using h
    · exact List.take_append_drop _ buf
  · intro ops
    exact foldl_bufStep_invariant _ ops ⟨[], 0, 0⟩ (by simp)

/-- Witness for `segment_buffer_take_spec` at a one-second interval and a
buffer of 16000 zero samples. -/
theorem segment_buffer_take_spec_witness :
    1 * 16000 ≤ (List.replicate 16000 (0 : ℚ)).length
    ∧ ((∃ w rest,
          try_take_window (1 * 16000) (List.replicate 16000 (0 : ℚ)) = some (w, rest)
          ∧ w.length = 1 * 16000 ∧ w ++ rest = List.replicate 16000 (0 : ℚ))
        ∧ ∀ ops : List (BufOp ℚ),
          (runOps (1 * 16000) ops).pushed
            = (runOps (1 * 16000) ops).taken
              + (runOps (1 * 16000) ops).buf.length) :=
  ⟨by rw [List.length_replicate],
    segment_buffer_take_spec 1 (List.replicate 16000 (0 : ℚ))
      (by rw [List.length_replicate])⟩

/-! ## Stream mixer (lines 273-288)

Per tick the loop drains both capture queues into `mic_chunks` and
`system_chunks`, flattens each, zero-pads the shorter flattened sequence
and adds elementwise. -/

/-- `np.pad(xs, (0, n - len(xs)))`: right-pad with zeros up to length `n`. -/
def padTo {α : Type} [Zero α] (xs : List α) (n : Nat) : List α :=
  xs ++ List.replicate (n - xs.length) 0

/-- Lines 282-286: pad whichever flattened sequence is shorter, then add
elementwise (`mixed_audio_chunk += system_audio_chunk`; the second length
test uses the already-padded `mixed_audio_chunk`). -/
def mixPair {α : Type} [Zero α] [Add α] (m s : List α) : List α :=
  let m1 := if m.length < s.length then padTo m s.length else m
  let s1 := if s.length < m1.length then padTo s m1.length else s
  List.zipWith (· + ·) m1 s1

/-- Lines 273-288: the mixed chunk produced by one tick.  `if mic_chunks
or system_chunks:` guards the whole block (an empty tick contributes
nothing to the buffer, modelled as `[]`); one active source passes its
flattened chunks through; with both, `mixPair` combines them (the
`len(mixed_audio_chunk) == 0` test short-circuits when the mic chunks
flatten to nothing). -/
def mixTick {α : Type} [Zero α] [Add α] (mic sys : List (List α)) : List α :=
  if mic.isEmpty && sys.isEmpty then []
  else
    let mixed1 := if mic.isEmpty then [] else mic.flatten
    if sys.isEmpty then mixed1
    else
      let s := sys.flatten
      if mixed1.length = 0 then s else mixPair mixed1 s

/-- Elementwise sum where the shorter list is implicitly zero-padded:
the reference form of the combination step of the mixer. -/
def addPad {α : Type} [Add α] : List α → List α → List α
  | [], ys => ys
  | x :: xs, [] => x :: xs
  | x :: xs, y :: ys => (x + y) :: addPad xs ys

/-- How one output position of the mix relates to the two input positions:
inside both inputs the elements are summed, inside only one the element
passes through unchanged. -/
def combineAt {α : Type} [Add α] : Option α → Option α → Option α
  | some a, some b => some (a + b)
  | some a, none => some a
  | none, some b => some b
  | none, none => none

lemma addPad_nil_left {α : Type} [Add α] (ys : List α) : addPad [] ys = ys := rfl

lemma addPad_nil_right {α : Type} [Add α] (xs : List α) : addPad xs [] = xs := by
  cases xs <;> rfl

lemma addPad_cons_cons {α : Type} [Add α] (x y : α) (xs ys : List α) :
    addPad (x :: xs) (y :: ys) = (x + y) :: addPad xs ys := rfl

lemma zipWith_replicate_zero_left {α : Type} [AddZeroClass α] (s : List α) :
    List.zipWith (· + ·) (List.replicate s.length (0 : α)) s = s := by
  induction s with
  | nil => rfl
  | cons y ys ih => simp [List.replicate_succ, ih]

lemma zipWith_replicate_zero_right {α : Type} [AddZeroClass α] (m : List α) :
    List.zipWith (· + ·) m (List.replicate m.length (0 : α)) = m := by
  induction m with
  | nil => rfl
  | cons x xs ih => simp [List.replicate_succ, ih]

lemma padTo_self {α : Type} [Zero α] (xs : List α) : padTo xs xs.length = xs := by
  simp [padTo]

lemma padTo_nil {α : Type} [Zero α] (n : Nat) :
    padTo ([] : List α) n = List.replicate n 0 := by
  simp [padTo]

lemma addPad_eq_zipWith_pad {α : Type} [AddZeroClass α] :
    ∀ m s : List α,
      addPad m s
        = List.zipWith (· + ·) (padTo m (max m.length s.length))
            (padTo s (max m.length s.length)) := by
  intro m
  induction m with
  | nil =>
    intro s
    have h1 : max ([] : List α).length s.length = s.length := by simp
    rw [addPad_nil_left, h1, padTo_nil, padTo_self, zipWith_replicate_zero_left]
  | cons x xs ih =>
    intro s
    cases s with
    | nil =>
      have h1 : max (x :: xs).length ([] : List α).length = (x :: xs).length := by
        simp
      rw [addPad_nil_right, h1, padTo_self, padTo_nil, zipWith_replicate_zero_right]
    | cons y ys =>
      have hmax : max (x :: xs).length (y :: ys).length
          = max xs.length ys.length + 1 := by
        simp only [List.length_cons]
        exact Nat.succ_max_succ xs.length ys.length
      rw [addPad_cons_cons, hmax]
      simp only [padTo, List.length_cons, Nat.succ_sub_succ, List.cons_append,
        List.zipWith_cons_cons]
      rw [ih ys]
      simp [padTo]

lemma mixPair_eq_addPad {α : Type} [AddZeroClass α] (m s : List α) :
    mixPair m s = addPad m s := by
  rw [addPad_eq_zipWith_pad]
  simp only [mixPair]
  by_cases h1 : m.length < s.length
  · have hmax : max m.length s.length = s.length := Nat.max_eq_right (le_of_lt h1)
    have hlen : (padTo m s.length).length = s.length := by
      simp only [padTo, List.length_append, List.length_replicate]
      omega
    rw [if_pos h1, hlen, if_neg (lt_irrefl s.length), hmax, padTo_self]
  · have hle : s.length ≤ m.length := Nat.le_of_not_lt h1
    have hmax : max m.length s.length = m.length := Nat.max_eq_left hle
    by_cases h2 : s.length < m.length
    · rw [if_neg h1, if_pos h2, hmax, padTo_self]
    · have hsm : s.length = m.length := by omega
      rw [if_neg h1, if_neg h2, hmax, padTo_self, ← hsm, padTo_self]

lemma mixTick_eq_addPad {α : Type} [AddZeroClass α] (mic sys : List (List α)) :
    mixTick mic sys = addPad mic.flatten sys.flatten := by
  cases mic with
  | nil =>
    cases sys with
    | nil => rfl
    | cons s ss =>
      have h : mixTick ([] : List (List α)) (s :: ss) = (s :: ss).flatten := rfl
      rw [h, List.flatten_nil, addPad_nil_left]
  | cons m ms =>
    cases sys with
    | nil =>
      have h : mixTick (m :: ms) ([] : List (List α)) = (m :: ms).flatten := rfl
      rw [h, List.flatten_nil, addPad_nil_right]
    | cons s ss =>
      have h : mixTick (m :: ms) (s :: ss)
          = if (m :: ms).flatten.length = 0 then (s :: ss).flatten
            else mixPair (m :: ms).flatten (s :: ss).flatten := rfl
      rw [h]
      by_cases hj : (m :: ms).flatten.length = 0
      · rw [if_pos hj, List.eq_nil_of_length_eq_zero hj, addPad_nil_left]
      · rw [if_neg hj, mixPair_eq_addPad]

lemma addPad_length {α : Type} [Add α] :
    ∀ m s : List α, (addPad m s).length = max m.length s.length := by
  intro m
  induction m with
  | nil => intro s; simp [addPad_nil_left]
  | cons x xs ih =>
    intro s
    cases s with
    | nil => simp [addPad_nil_right]
    | cons y ys =>
      rw [addPad_cons_cons]
      simp only [List.length_cons, ih ys]
      exact (Nat.succ_max_succ xs.length ys.length).symm

lemma addPad_getElem? {α : Type} [Add α] :
    ∀ (m s : List α) (i : Nat), (addPad m s)[i]? = combineAt m[i]? s[i]? := by
  intro m
  induction m with
  | nil =>
    intro s i
    rw [addPad_nil_left, List.getElem?_nil]
    cases h : s[i]? <;> rfl
  | cons x xs ih =>
    intro s i
    cases s with
    | nil =>
      rw [addPad_nil_right, List.getElem?_nil]
      cases h : (x :: xs)[i]? <;> rfl
    | cons y ys =>
      cases i with
      | zero =>
        rw [addPad_cons_cons, List.getElem?_cons_zero, List.getElem?_cons_zero,
          List.getElem?_cons_zero]
        rfl
      | succ j =>
        rw [addPad_cons_cons, List.getElem?_cons_succ, List.getElem?_cons_succ,
          List.getElem?_cons_succ]
        exact ih ys j

lemma addPad_comm {α : Type} [AddCommMonoid α] :
    ∀ m s : List α, addPad m s = addPad s m := by
  intro m
  induction m with
  | nil => intro s; rw [addPad_nil_left, addPad_nil_right]
  | cons x xs ih =>
    intro s
    cases s with
    | nil => rfl
    | cons y ys =>
      rw [addPad_cons_cons, addPad_cons_cons, add_comm, ih ys]

/-- Claim C3: with chunks from only one source present the tick output is the
flattened concatenation of exactly those chunks; with both present the
output has length `max m n` over the flattened lengths, the overlap is the
elementwise sum and the excess is the tail of the longer sequence, unchanged
(positions covered by both inputs hold the sum, positions covered by only
one hold the element of that input unchanged). -/
theorem mixer_tick_spec (mic sys : List (List ℚ)) :
    (sys = [] → mixTick mic sys = mic.flatten)
    ∧ (mic = [] → mixTick mic sys = sys.flatten)
    ∧ (mixTick mic sys).length = max mic.flatten.length sys.flatten.length
    ∧ ∀ i : Nat, (mixTick mic sys)[i]? = combineAt mic.flatten[i]? sys.flatten[i]? := by
  refine ⟨?_, ?_, ?_, ?_⟩
  · intro hs
    rw [mixTick_eq_addPad, hs, List.flatten_nil, addPad_nil_right]
  · intro hm
    rw [mixTick_eq_addPad, hm, List.flatten_nil, addPad_nil_left]
  · rw [mixTick_eq_addPad, addPad_length]
  · intro i
    rw [mixTick_eq_addPad, addPad_getElem?]

/-- Witness for `mixer_tick_spec`: one absent source passes the other
through (`[[1,2,3]]` alone flattens to `[1,2,3]`), and mixing
`[[1,2,3]]` with `[[10,20]]` sums the overlap (`1 + 10` at index 0) and
keeps the longer tail (`3` at index 2). -/
theorem mixer_tick_spec_witness :
    mixTick [[(1 : ℚ), 2, 3]] ([] : List (List ℚ)) = [1, 2, 3]
    ∧ (mixTick [[(1 : ℚ), 2, 3]] [[10, 20]])[0]? = some 11
    ∧ (mixTick [[(1 : ℚ), 2, 3]] [[10, 20]])[2]? = some 3 := by
  refine ⟨?_, ?_, ?_⟩
  · have h := (mixer_tick_spec [[(1 : ℚ), 2, 3]] []).1 rfl
    rw [h]
    simp
  · have h := (mixer_tick_spec [[(1 : ℚ), 2, 3]] [[10, 20]]).2.2.2 0
    rw [h]
    simp [combineAt]
    norm_num
  · have h := (mixer_tick_spec [[(1 : ℚ), 2, 3]] [[10, 20]]).2.2.2 2
    rw [h]
    simp [combineAt]

/-- Claim C8: the per-tick mix is symmetric in the two sources — swapping
which chunk list arrives on the microphone queue and which on the
system-audio queue yields an identical mixed output, including when one
list is empty. -/
theorem mixer_tick_comm (mic sys : List (List ℚ)) :
    mixTick mic sys = mixTick sys mic := by
  rw [mixTick_eq_addPad, mixTick_eq_addPad]
  exact addPad_comm _ _

/-! ## Silence gate (lines 295-297) -/

/-- `rms_val = np.sqrt(np.mean(np.square(processing_audio)))`: the square
root of the mean of the squared samples. -/
noncomputable def rms (w : List ℝ) : ℝ :=
  Real.sqrt ((w.map fun x => x * x).sum / w.length)

/-- `if rms_val < SILENCE_THRESHOLD: continue` — the window is discarded
(skipped without transcription or any Result) exactly when its RMS is
strictly below the threshold. -/
def discards (threshold : ℝ) (w : List ℝ) : Prop := rms w < threshold

lemma rms_replicate_zero (n : Nat) : rms (List.replicate n (0 : ℝ)) = 0 := by
  unfold rms
  rw [List.map_replicate]
  simp

/-- Counterexample to claim C2 as stated: the claim asserts that a window
whose RMS is exactly equal to the threshold is discarded, but the gate is
the strict comparison `rms < threshold`, so the all-ones window of 16000
samples (RMS exactly 1) is NOT discarded at threshold 1. -/
theorem rms_at_threshold_counterexample :
    rms (List.replicate 16000 (1 : ℝ)) = 1
    ∧ ¬ discards 1 (List.replicate 16000 (1 : ℝ)) := by
  have h : rms (List.replicate 16000 (1 : ℝ)) = 1 := by
    unfold rms
    rw [List.map_replicate, List.sum_replicate, List.length_replicate]
    norm_num
  refine ⟨h, ?_⟩
  rw [discards, h]
  exact lt_irrefl 1

/-- Claim C2 (amended): for every threshold `t > 0`, a window of all-zero
samples is discarded; a window whose RMS is exactly `t` is forwarded (not
discarded), the gate being the strict comparison `rms < t`; and a window
whose RMS is strictly above `t` is forwarded. -/
theorem silence_gate_spec (n : Nat) (w : List ℝ) (t : ℝ) (ht : 0 < t) :
    discards t (List.replicate n (0 : ℝ))
    ∧ (rms w = t → ¬ discards t w)
    ∧ (t < rms w → ¬ discards t w) := by
  refine ⟨?_, ?_, ?_⟩
  · rw [discards, rms_replicate_zero]
    exact ht
  · intro h
    rw [discards, h]
    exact lt_irrefl t
  · intro h
    rw [discards]
    exact not_lt_of_gt h

/-- Witness for `silence_gate_spec` at threshold 1 and a four-sample
window. -/
theorem silence_gate_spec_witness :
    (0 : ℝ) < 1
    ∧ (discards 1 (List.replicate 4 (0 : ℝ))
        ∧ (rms [] = 1 → ¬ discards 1 [])
        ∧ (1 < rms [] → ¬ discards 1 [])) :=
  ⟨one_pos, silence_gate_spec 4 [] 1 one_pos⟩

/-! ## Translation wrapper (lines 58-73) -/

/-- The observable outcome of the `requests.post` call to the DeepL
endpoint.  `netError` covers every `requests.exceptions.RequestException`
raised by the call itself (connection failure, timeout); `httpError` is
the `HTTPError` raised by `response.raise_for_status()` on an error
status; `ok` carries the decoded JSON body, reduced to the parts the code
reads: the optional `translations` array whose entries optionally carry a
`text` field. -/
inductive NetOutcome where
  | netError (msg : String)
  | httpError (msg : String)
  | ok (translations : Option (List (Option String)))

/-- Lines 58-73: `translate_text`.  An empty or placeholder API key short-
circuits to `"[翻译未配置]"`.  A `RequestException` (from the request or
from `raise_for_status`) yields `"[翻译错误: <e>]"`.  A `KeyError` or
`IndexError` while reading field `text` of entry 0 of field `translations`
yields `"[翻译API返回格式错误]"`.  Otherwise the translated text is
returned.  The unused `text`/`targetLang` arguments are the request
payload. -/
def translate_text (apiKey text targetLang : String) (net : NetOutcome) : String :=
  if apiKey.isEmpty || apiKey.containsSubstr "YOUR_DEEPL_API_KEY" then "[翻译未配置]"
  else
    match net with
    | .netError e => "[翻译错误: " ++ e ++ "]"
    | .httpError e => "[翻译错误: " ++ e ++ "]"
    | .ok none => "[翻译API返回格式错误]"
    | .ok (some []) => "[翻译API返回格式错误]"
    | .ok (some (none :: _)) => "[翻译API返回格式错误]"
    | .ok (some (some t :: _)) => t

/-- The outcomes claim C5 is about: network failure or timeout, HTTP error
status, or a response body missing the expected
`translations[0].text` fields. -/
def isFailureOutcome : NetOutcome → Prop
  | .netError _ => True
  | .httpError _ => True
  | .ok none => True
  | .ok (some []) => True
  | .ok (some (none :: _)) => True
  | .ok (some (some _ :: _)) => False

/-- The human-readable placeholder strings `translate_text` can return in
place of a translation. -/
def isPlaceholder (s : String) : Prop :=
  s = "[翻译未配置]" ∨ s = "[翻译API返回格式错误]"
    ∨ ∃ e, s = "[翻译错误: " ++ e ++ "]"

/-- Claim C5: `translate_text` is a total function (it never raises), and
on every failure outcome — network failure, timeout, HTTP error status, or
a response missing the expected fields — it returns one of the
human-readable placeholder strings, so the pipeline always receives some
string. -/
theorem translate_text_failure_placeholder (apiKey text targetLang : String)
    (net : NetOutcome) (h : isFailureOutcome net) :
    isPlaceholder (translate_text apiKey text targetLang net) := by
  unfold translate_text
  by_cases hk : (apiKey.isEmpty || apiKey.containsSubstr "YOUR_DEEPL_API_KEY") = true
  · rw [if_pos hk]
    exact Or.inl rfl
  · rw [if_neg hk]
    cases net with
    | netError e => exact Or.inr (Or.inr ⟨e, rfl⟩)
    | httpError e => exact Or.inr (Or.inr ⟨e, rfl⟩)
    | ok tr =>
      match tr with
      | none => exact Or.inr (Or.inl rfl)
      | some [] => exact Or.inr (Or.inl rfl)
      | some (none :: _) => exact Or.inr (Or.inl rfl)
      | some (some t :: _) => exact absurd h (by simp [isFailureOutcome])

/-- Witness for `translate_text_failure_placeholder`: a timeout with a
configured key yields a placeholder. -/
theorem translate_text_failure_placeholder_witness :
    isFailureOutcome (NetOutcome.netError "timeout")
    ∧ isPlaceholder (translate_text "k" "hello" "ZH" (NetOutcome.netError "timeout")) :=
  ⟨trivial, translate_text_failure_placeholder "k" "hello" "ZH"
    (NetOutcome.netError "timeout") trivial⟩

/-- Claim C10: with an empty API key or a key still containing the
`"YOUR_DEEPL_API_KEY"` placeholder, `translate_text` returns exactly
`"[翻译未配置]"` whatever the network would have answered (the request is
never attempted: the result does not depend on `net`). -/
theorem translate_text_unconfigured (apiKey text targetLang : String)
    (net : NetOutcome)
    (h : apiKey = "" ∨ apiKey.containsSubstr "YOUR_DEEPL_API_KEY" = true) :
    translate_text apiKey text targetLang net = "[翻译未配置]" := by
  have hb : (apiKey.isEmpty || apiKey.containsSubstr "YOUR_DEEPL_API_KEY") = true := by
    cases h with
    | inl h => rw [h]; rfl
    | inr h => rw [h, Bool.or_true]
  unfold translate_text
  rw [if_pos hb]

/-- Witness for `translate_text_unconfigured`: the empty key ignores even
a well-formed successful response. -/
theorem translate_text_unconfigured_witness :
    (("" : String) = "" ∨ ("" : String).containsSubstr "YOUR_DEEPL_API_KEY" = true)
    ∧ translate_text "" "hello" "ZH" (NetOutcome.ok (some [some "howdy"]))
        = "[翻译未配置]" :=
  ⟨Or.inl rfl, translate_text_unconfigured "" "hello" "ZH"
    (NetOutcome.ok (some [some "howdy"])) (Or.inl rfl)⟩

/-! ## Python text helpers

`str.strip()` and `str.split()` are modelled at the character level
(whitespace removal at both ends; splitting into maximal non-whitespace
runs). -/

/-- Python `str.strip()` on the character sequence: drop whitespace from
both ends. -/
def pyStripChars (cs : List Char) : List Char :=
  ((cs.dropWhile Char.isWhitespace).reverse.dropWhile Char.isWhitespace).reverse

/-- Python `str.strip()`. -/
def pyStrip (s : String) : String := ⟨pyStripChars s.data⟩

lemma dropWhile_length_le {α : Type} (p : α → Bool) (l : List α) :
    (l.dropWhile p).length ≤ l.length := by
  induction l with
  | nil => exact Nat.le_refl 0
  | cons c cs ih =>
    rw [List.dropWhile_cons]
    by_cases h : p c = true
    · rw [if_pos h]; exact Nat.le_succ_of_le ih
    · rw [if_neg h]

/-- Python `str.split()` on the character sequence: the maximal runs of
non-whitespace characters, in order. -/
def pyWordsChars : List Char → List (List Char)
  | [] => []
  | c :: cs =>
    if c.isWhitespace then pyWordsChars cs
    else (c :: cs.takeWhile fun d => !d.isWhitespace)
      :: pyWordsChars (cs.dropWhile fun d => !d.isWhitespace)
termination_by cs => cs.length
decreasing_by
  · simp
  · simp only [List.length_cons]
    exact Nat.lt_succ_of_le (dropWhile_length_le _ _)

/-- Python `str.split()`. -/
def pyWords (s : String) : List String := (pyWordsChars s.data).map fun w => ⟨w⟩

/-! ## Dispatch of a recognized window (lines 300-311) -/

/-- `deque(maxlen=cap)` append: add at the right, evicting from the left
once the bound is exceeded. -/
def pushBounded {α : Type} (cap : Nat) (buf : List α) (x : α) : List α :=
  (buf ++ [x]).drop ((buf ++ [x]).length - cap)

/-- `deque(maxlen=cap).extend(xs)`: append several items, keeping only the
`cap` newest. -/
def extendBounded {α : Type} (cap : Nat) (buf : List α) (xs : List α) : List α :=
  (buf ++ xs).drop ((buf ++ xs).length - cap)

/-- Lines 300-311: `recognized_text` is the stripped `text` field of the
transcription result; empty text
produces nothing; otherwise a subtitle Result is put on `results_queue`
and, when translation display is enabled, the text is appended to the
capacity-3 `translation_input_buffer` and a translation task is spawned
carrying `" ".join(self.translation_input_buffer)`.  Returns the emitted
Results, the updated `translation_input_buffer`, and the texts handed to
spawned translation tasks. -/
def dispatchRecognized (showTranslation : Bool) (tbuf : List String)
    (rawText : String) : List Result × List String × List String :=
  let recognized := pyStrip rawText
  if recognized = "" then ([], tbuf, [])
  else if showTranslation then
    let tbuf1 := pushBounded 3 tbuf recognized
    ([Result.subtitle recognized], tbuf1, [String.intercalate " " tbuf1])
  else ([Result.subtitle recognized], tbuf, [])

/-- Claim C6: a window whose recognized text strips to empty produces no
Result of any kind (nothing emitted, no translation task); non-empty
stripped text always emits a subtitle Result carrying exactly that
text. -/
theorem dispatch_empty_nonempty_spec (showTranslation : Bool)
    (tbuf : List String) (rawText : String) :
    (pyStrip rawText = "" →
      dispatchRecognized showTranslation tbuf rawText = ([], tbuf, []))
    ∧ (pyStrip rawText ≠ "" →
      (dispatchRecognized showTranslation tbuf rawText).1
        = [Result.subtitle (pyStrip rawText)]) := by
  constructor
  · intro h
    simp [dispatchRecognized, h]
  · intro h
    by_cases hs : showTranslation <;> simp [dispatchRecognized, h, hs]

/-- Witness for `dispatch_empty_nonempty_spec`: whitespace-only text emits
nothing, `"hi"` emits a subtitle. -/
theorem dispatch_empty_nonempty_spec_witness :
    (pyStrip " " = "" ∧ dispatchRecognized true ["ctx"] " " = ([], ["ctx"], []))
    ∧ (pyStrip "hi" ≠ ""
        ∧ (dispatchRecognized true ["ctx"] "hi").1 = [Result.subtitle (pyStrip "hi")]) :=
  ⟨⟨by decide, (dispatch_empty_nonempty_spec true ["ctx"] " ").1 (by decide)⟩,
    ⟨by decide, (dispatch_empty_nonempty_spec true ["ctx"] "hi").2 (by decide)⟩⟩

/-- Claim C7: the translation context buffer (`deque(maxlen=3)`) evicts
its oldest entry on overflow — pushing "s1","s2","s3","s4" and joining
with spaces yields exactly "s2 s3 s4" — and every spawned translation
task receives exactly the space-join of the updated buffer. -/
theorem translation_context_spec :
    (List.foldl (pushBounded 3) ([] : List String) ["s1", "s2", "s3", "s4"]
        = ["s2", "s3", "s4"]
      ∧ String.intercalate " "
          (List.foldl (pushBounded 3) ([] : List String) ["s1", "s2", "s3", "s4"])
          = "s2 s3 s4")
    ∧ ∀ (tbuf : List String) (rawText : String), pyStrip rawText ≠ "" →
        (dispatchRecognized true tbuf rawText).2.2
          = [String.intercalate " " (pushBounded 3 tbuf (pyStrip rawText))] := by
  refine ⟨⟨by decide, by decide⟩, ?_⟩
  intro tbuf rawText h
  simp [dispatchRecognized, h]

/-- Witness for `translation_context_spec` at a concrete dispatch. -/
theorem translation_context_spec_witness :
    pyStrip "hello" ≠ ""
    ∧ (dispatchRecognized true ["s2", "s3"] "hello").2.2
        = [String.intercalate " " (pushBounded 3 ["s2", "s3"] (pyStrip "hello"))] :=
  ⟨by decide, translation_context_spec.2 ["s2", "s3"] "hello" (by decide)⟩

/-! ## Display update (lines 196-211) -/

/-- The GUI state touched by `periodic_gui_update`: the rolling word
buffer (`deque(maxlen=SUBTITLE_WORD_BUFFER_SIZE)`), the text shown in the
subtitle widget, and the translation label text. -/
structure GuiState where
  wordBuffer : List String
  displayedText : String
  translationText : String
deriving DecidableEq, Repr

/-- Lines 199-211: consuming one Result.  The text of a subtitle is stripped
and split into words; when no words remain, nothing happens; otherwise
the word buffer is extended (bounded) and the widget is rewritten with
the space-join of the buffer.  A translation Result updates the
translation label only when translation display is on. -/
def handleResult (cap : Nat) (showTranslation : Bool) (g : GuiState) :
    Result → GuiState
  | .subtitle text =>
    let newWords := pyWords (pyStrip text)
    if newWords.isEmpty then g
    else
      let wb := extendBounded cap g.wordBuffer newWords
      { g with wordBuffer := wb, displayedText := String.intercalate " " wb }
  | .translation text =>
    if showTranslation then { g with translationText := text } else g

lemma dropWhile_all {α : Type} (p : α → Bool) :
    ∀ cs : List α, cs.all p = true → cs.dropWhile p = [] := by
  intro cs h
  induction cs with
  | nil => rfl
  | cons c cs ih =>
    simp only [List.all_cons, Bool.and_eq_true] at h
    rw [List.dropWhile_cons, if_pos h.1]
    exact ih h.2

lemma pyStripChars_all_whitespace (cs : List Char)
    (h : cs.all Char.isWhitespace = true) : pyStripChars cs = [] := by
  unfold pyStripChars
  rw [dropWhile_all _ cs h]
  rfl

/-- Claim C9: consuming a subtitle Result whose text is empty or consists
only of whitespace leaves the GUI state unchanged: the stripped text
splits into no words, so the word buffer is not extended and the subtitle
widget is not rewritten. -/
theorem gui_blank_subtitle_noop (cap : Nat) (showTranslation : Bool)
    (g : GuiState) (text : String)
    (h : text.data.all Char.isWhitespace = true) :
    handleResult cap showTranslation g (Result.subtitle text) = g := by
  have hs : pyStrip text = ⟨[]⟩ := by
    unfold pyStrip
    rw [pyStripChars_all_whitespace text.data h]
  have hw : pyWords (pyStrip text) = [] := by
    rw [hs]
    simp [pyWords, pyWordsChars]
  simp [handleResult, hw]

/-- Witness for `gui_blank_subtitle_noop` on a whitespace-only subtitle. -/
theorem gui_blank_subtitle_noop_witness :
    (" \t".data.all Char.isWhitespace = true)
    ∧ handleResult 40 true ⟨["w1"], "w1", "t"⟩ (Result.subtitle " \t")
        = ⟨["w1"], "w1", "t"⟩ :=
  ⟨by decide, gui_blank_subtitle_noop 40 true ⟨["w1"], "w1", "t"⟩ " \t" (by decide)⟩

/-! ## Mode state machine and one loop iteration (lines 235-313) -/

/-- The microphone capture mode (radio value "麦克风"). -/
def micMode : String := "麦克风"

/-- The system-audio capture mode (radio value "系统音频"). -/
def sysMode : String := "系统音频"

/-- The mixed capture mode (radio value "混合模式"). -/
def mixMode : String := "混合模式"

/-- The switch-status subtitle of line 245: the f-string interpolating the
new mode name. -/
def switchMsg (mode : String) : String := "切换到 " ++ mode ++ " 模式..."

/-- The device-configuration failure subtitle of line 258. -/
def noStreamMsg (mode : String) : String :=
  "\x27" ++ mode ++ "\x27 模式无法启动，请在 config.ini 中配置设备ID。"

/-- The state `audio_processing_loop` carries across iterations:
`last_mode`, the open streams, `audio_buffer`, and the two rolling
buffers it clears on a mode switch (`word_buffer`,
`translation_input_buffer`). -/
structure ProcState where
  lastMode : String
  streams : List String
  audioBuffer : List ℝ
  wordBuffer : List String
  translationInputBuffer : List String

/-- Lines 237-264: the mode-change block.  When the observed mode differs
from `last_mode`: stop and close all streams, clear the audio buffer, set
`last_mode`, put the switch-status subtitle on `results_queue`, clear
both rolling buffers, and open the stream(s) the new mode requires (each
needs its device id configured).  If none could be opened, put a
diagnostic subtitle, reset `last_mode` to the empty sentinel and skip the
rest of the iteration (`continue`).  Returns the new state, the Results
emitted, and whether the iteration was aborted. -/
def handleModeChange (micConfigured sysConfigured : Bool)
    (currentMode : String) (s : ProcState) : ProcState × List Result × Bool :=
  if currentMode = s.lastMode then (s, [], false)
  else
    let streams :=
      (if (currentMode = micMode ∨ currentMode = mixMode) ∧ micConfigured then
        ["mic"] else [])
      ++ (if (currentMode = sysMode ∨ currentMode = mixMode) ∧ sysConfigured then
        ["sys"] else [])
    if streams.isEmpty then
      ({ lastMode := "", streams := [], audioBuffer := [], wordBuffer := [],
          translationInputBuffer := [] },
        [Result.subtitle (switchMsg currentMode),
          Result.subtitle (noStreamMsg currentMode)], true)
    else
      ({ lastMode := currentMode, streams := streams, audioBuffer := [],
          wordBuffer := [], translationInputBuffer := [] },
        [Result.subtitle (switchMsg currentMode)], false)

/-- Lines 235-313: one iteration of the `while self.app_running` loop,
with the transcription collaborator abstracted as a function from the
samples of the window to its recognized text.  After the mode-change block the
tick drains both capture queues, mixes them, appends to the buffer, and
when a full window is available runs the silence gate and the dispatch
(`dispatchRecognized`).  Returns the end-of-iteration state and the
Results put on `results_queue` during the iteration, in order (translation
tasks are asynchronous and deliver later, so only subtitle Results appear
here). -/
noncomputable def loopIteration (micConfigured sysConfigured : Bool)
    (threshold : ℝ) (interval : Nat) (showTranslation : Bool)
    (transcribe : List ℝ → String) (currentMode : String)
    (micChunks sysChunks : List (List ℝ)) (s : ProcState) :
    ProcState × List Result :=
  match handleModeChange micConfigured sysConfigured currentMode s with
  | (s1, rs, aborted) =>
    if aborted then (s1, rs)
    else
      let buf := s1.audioBuffer ++ mixTick micChunks sysChunks
      if interval ≤ buf.length then
        let w := buf.take interval
        let s2 := { s1 with audioBuffer := buf.drop interval }
        if rms w < threshold then (s2, rs)
        else
          let d := dispatchRecognized showTranslation
            s2.translationInputBuffer (transcribe w)
          ({ s2 with translationInputBuffer := d.2.1 }, rs ++ d.1)
      else ({ s1 with audioBuffer := buf }, rs)

lemma handleModeChange_clears (micConfigured sysConfigured : Bool)
    (currentMode : String) (s : ProcState) (h : currentMode ≠ s.lastMode) :
    (handleModeChange micConfigured sysConfigured currentMode s).1.audioBuffer = []
    ∧ (handleModeChange micConfigured sysConfigured currentMode s).1.wordBuffer = []
    ∧ (handleModeChange micConfigured sysConfigured currentMode
        s).1.translationInputBuffer = []
    ∧ (handleModeChange micConfigured sysConfigured currentMode s).2.1.head?
        = some (Result.subtitle (switchMsg currentMode)) := by
  simp only [handleModeChange]
  rw [if_neg h]
  split <;> split <;> split <;> exact ⟨rfl, rfl, rfl, rfl⟩

/-- Claim C4: when the observed capture mode differs from the active one
and the rolling word buffer, translation context buffer, and mixed sample
buffer are all non-empty, processing the mode change empties all three
buffers, and the first Result the iteration puts on the results queue is
the switch-status subtitle — any newly recognized subtitle text can only
be appended after it. -/
theorem mode_switch_spec (micConfigured sysConfigured : Bool) (threshold : ℝ)
    (interval : Nat) (showTranslation : Bool) (transcribe : List ℝ → String)
    (currentMode : String) (micChunks sysChunks : List (List ℝ))
    (s : ProcState) (hmode : currentMode ≠ s.lastMode)
    (hwb : s.wordBuffer ≠ []) (htb : s.translationInputBuffer ≠ [])
    (hab : s.audioBuffer ≠ []) :
    ((handleModeChange micConfigured sysConfigured currentMode s).1.audioBuffer = []
      ∧ (handleModeChange micConfigured sysConfigured currentMode s).1.wordBuffer = []
      ∧ (handleModeChange micConfigured sysConfigured currentMode
          s).1.translationInputBuffer = [])
    ∧ (loopIteration micConfigured sysConfigured threshold interval
        showTranslation transcribe currentMode micChunks sysChunks s).2.head?
        = some (Result.subtitle (switchMsg currentMode)) := by
  have hclr := handleModeChange_clears micConfigured sysConfigured currentMode s hmode
  refine ⟨⟨hclr.1, hclr.2.1, hclr.2.2.1⟩, ?_⟩
  have hhd := hclr.2.2.2
  rcases hEq : handleModeChange micConfigured sysConfigured currentMode s
    with ⟨s1, rs, ab⟩
  rw [hEq] at hhd
  simp only at hhd
  simp only [loopIteration, hEq]
  cases rs with
  | nil => simp at hhd
  | cons r rt =>
    simp only [List.head?_cons, Option.some.injEq] at hhd
    subst hhd
    cases ab with
    | true => rfl
    | false =>
      simp only [if_false, Bool.false_eq_true]
      split
      · split
        · rfl
        · rfl
      · rfl

/-- Witness for `mode_switch_spec`: switching from system-audio mode to
microphone mode with all three buffers non-empty. -/
theorem mode_switch_spec_witness :
    micMode ≠ (ProcState.mk sysMode ["sys"] [0] ["w"] ["t"]).lastMode
    ∧ (ProcState.mk sysMode ["sys"] [0] ["w"] ["t"]).wordBuffer ≠ []
    ∧ (ProcState.mk sysMode ["sys"] [0] ["w"] ["t"]).translationInputBuffer ≠ []
    ∧ (ProcState.mk sysMode ["sys"] [0] ["w"] ["t"]).audioBuffer ≠ []
    ∧ (((handleModeChange true true micMode
            (ProcState.mk sysMode ["sys"] [0] ["w"] ["t"])).1.audioBuffer = []
        ∧ (handleModeChange true true micMode
            (ProcState.mk sysMode ["sys"] [0] ["w"] ["t"])).1.wordBuffer = []
        ∧ (handleModeChange true true micMode
            (ProcState.mk sysMode ["sys"] [0] ["w"] ["t"])).1.translationInputBuffer = [])
      ∧ (loopIteration true true 1 16000 false (fun _ => "") micMode [] []
          (ProcState.mk sysMode ["sys"] [0] ["w"] ["t"])).2.head?
          = some (Result.subtitle (switchMsg micMode))) := by
  refine ⟨by decide, by simp, by simp, by simp, ?_⟩
  exact mode_switch_spec true true 1 16000 false (fun _ => "") micMode [] []
    (ProcState.mk sysMode ["sys"] [0] ["w"] ["t"]) (by decide)
    (by simp) (by simp) (by simp)

end LiveCaption
